import Mathlib

/-!
Formal model of the neptulon framed-connection layer (Go), shallowly
embedded in Lean 4.  Each definition mirrors one function of the source
tree; Go byte slices are `List Nat` (each element a byte value), Go `int`
configuration parameters are `Nat` (all configuration values exercised by
the development are nonnegative), and fallible operations return `Option`
or a result inductive.  The behaviour of the underlying `tls.Conn` stream
is represented by an explicit list of per-call results, one list element
per `conn.Read` / `conn.Write` call made by the code under study.
-/

/-- Configuration state of a `Conn` (src/conn.go, struct `Conn`): the
frame-header width in bytes, the maximum message size in bytes, the read
deadline in seconds (the source stores `time.Second * readDeadline`), and
the debug flag.  The identity/session/stream fields of the Go struct do
not influence the framing functions modelled here and are omitted. -/
structure ConnCfg where
  headerSize : Nat
  maxMsgSize : Nat
  readDeadline : Nat
  debug : Bool
  deriving Repr, DecidableEq

/-- Configuration part of `NewConn` (src/conn.go): each of `headerSize`,
`maxMsgSize` and `readDeadline` is replaced by its default (4,
4294967295, 300) when passed as 0.  The UID generation and session
creation done by `NewConn` do not affect the configuration and are not
modelled. -/
def NewConnCfg (headerSize maxMsgSize readDeadline : Nat) (debug : Bool) : ConnCfg :=
  { headerSize := if headerSize = 0 then 4 else headerSize
    maxMsgSize := if maxMsgSize = 0 then 4294967295 else maxMsgSize
    readDeadline := if readDeadline = 0 then 300 else readDeadline
    debug := debug }

/-- Configuration of a connection produced by `Dial` (src/conn.go): after
the TLS handshake, `Dial` calls `NewConn(c, 0, 0, 0, debug)`. -/
def DialCfg (debug : Bool) : ConnCfg :=
  NewConnCfg 0 0 0 debug

/-- Little-endian byte encoding of `binary.LittleEndian.PutUint32` applied
to a `uint32` value `v < 2^32`: four bytes, least significant first. -/
def putUint32LE (v : Nat) : List Nat :=
  [v % 256, v / 256 % 256, v / 65536 % 256, v / 16777216 % 256]

/-- `makeHeaderBytes` (src/conn.go): allocates `size` zero bytes and calls
`binary.LittleEndian.PutUint32(b, uint32(h))`.  `PutUint32` begins with
the bounds check `_ = b[3]`, so the Go function panics (index out of
range) whenever `size < 4`; the panic is modelled as `none`.  For
`size >= 4` the first four bytes hold `h mod 2^32` little-endian and the
remaining `size - 4` bytes stay zero. -/
def makeHeaderBytes (h size : Nat) : Option (List Nat) :=
  if size < 4 then none
  else some (putUint32LE (h % 4294967296) ++ List.replicate (size - 4) 0)

/-- `readHeaderBytes` (src/conn.go): `binary.LittleEndian.Uint32(h)` reads
exactly the first four bytes (little-endian); it panics (modelled as
`none`) when fewer than four bytes are supplied, and ignores any bytes
past the fourth. -/
def readHeaderBytes (h : List Nat) : Option Nat :=
  match h with
  | b0 :: b1 :: b2 :: b3 :: _ => some (b0 + b1 * 256 + b2 * 65536 + b3 * 16777216)
  | _ => none

/-- C8: passing 0 for `headerSize`, `maxMsgSize` or `readDeadline` to
`NewConn` yields the defaults of 4 bytes, 4294967295 bytes and 300
seconds respectively, and `Dial` passes zeros for all three, so every
dialled connection carries exactly the default configuration. -/
theorem newConn_zero_defaults :
    ∀ (h m r : Nat) (d : Bool),
      (NewConnCfg 0 m r d).headerSize = 4
    ∧ (NewConnCfg h 0 r d).maxMsgSize = 4294967295
    ∧ (NewConnCfg h m 0 d).readDeadline = 300
    ∧ DialCfg d = { headerSize := 4, maxMsgSize := 4294967295, readDeadline := 300, debug := d } := by
  intro h m r d
  refine ⟨rfl, rfl, rfl, ?_⟩
  simp [DialCfg, NewConnCfg]

/-- C4 counterexample: at header width 2 (and message length 0, below any
maximum), `makeHeaderBytes` does not produce 2 bytes: the underlying
`PutUint32` panics on a buffer shorter than 4 bytes (modelled as `none`),
and `readHeaderBytes` likewise panics on a 2-byte header. -/
theorem makeHeaderBytes_width_two_panics :
    makeHeaderBytes 0 2 = none ∧ readHeaderBytes [7, 0] = none := by
  constructor <;> rfl

/-- C4 amended: for every header width `s ≥ 4` and message length
`n < 2^32`, `makeHeaderBytes n s` produces exactly `s` bytes — the
little-endian encoding of `n` padded with zero bytes — and
`readHeaderBytes` recovers `n` from them.  (Widths below 4 make both
functions panic, and values of 2^32 or more are truncated, since a
32-bit prefix is written and read regardless of the configured width.) -/
theorem header_roundtrip_ge4 (n s : Nat) (hs : 4 ≤ s) (hn : n < 4294967296) :
    ∃ bs, makeHeaderBytes n s = some bs ∧ bs.length = s ∧ readHeaderBytes bs = some n := by
  refine ⟨putUint32LE (n % 4294967296) ++ List.replicate (s - 4) 0, ?_, ?_, ?_⟩
  · rw [makeHeaderBytes, if_neg (by omega)]
  · simp [putUint32LE]
    omega
  · simp [putUint32LE, readHeaderBytes]
    omega

/-- C4 witness: the round-trip theorem instantiated at width 5 and
length 300. -/
theorem header_roundtrip_ge4_witness :
    4 ≤ 5 ∧ 300 < 4294967296 ∧
    ∃ bs, makeHeaderBytes 300 5 = some bs ∧ bs.length = 5 ∧ readHeaderBytes bs = some 300 :=
  ⟨by decide, by decide, header_roundtrip_ge4 300 5 (by decide) (by decide)⟩

/-- Result of one call to `tls.Conn.Read` by the code under study: either
a chunk of bytes delivered without error, or an error.  The callers in
src/conn.go always pass a buffer of the bytes still wanted, so in any
execution of the real program a chunk never exceeds the space remaining;
theorems quantifying over streams carry that constraint where needed.
A Go reader may also return bytes together with an error, but src/conn.go discards
the byte count on every errored read (`if err != nil` comes before
`total += i`), so an error event needs no byte payload. -/
inductive ReadEv
  | chunk (bs : List Nat)
  | fail (e : String)
  deriving Repr, DecidableEq

/-- One `conn.Read` call against the stream: pops the next event.  An
exhausted stream stands for a peer that delivers nothing more, which the
blocking Go call observes as an error (EOF). -/
def popRead : List ReadEv → List Nat × Option String × List ReadEv
  | [] => ([], some "EOF", [])
  | ReadEv.chunk bs :: rest => (bs, none, rest)
  | ReadEv.fail e :: rest => ([], some e, rest)

/-- Body loop of `Conn.Read` (src/conn.go): `for total < n` issue one
`conn.Read` into the remaining buffer; on an errored read break with the
bytes of that call discarded; otherwise `total += i`.  The accumulated
bytes, and the error of the breaking read (if any), are returned. -/
def readLoop (n : Nat) : List ReadEv → List Nat → List Nat × Option String
  | [], acc => if n ≤ acc.length then (acc, none) else (acc, some "EOF")
  | ReadEv.chunk bs :: rest, acc =>
      if n ≤ acc.length then (acc, none) else readLoop n rest (acc ++ bs)
  | ReadEv.fail e :: _rest, acc =>
      if n ≤ acc.length then (acc, none) else (acc, some e)

/-- Errors produced by `Conn.Read`, one constructor per `fmt.Errorf` or
returned-error site of the source. -/
inductive ConnErr
  | transport (e : String)
  | headerShort (expected got : Nat)
  | bodyIncomplete (expected got : Nat)
  deriving Repr, DecidableEq

/-- Outcome of `Conn.Read`. `panicked` marks executions on which the Go
code panics (header width below 4, see `readHeaderBytes`). -/
inductive ReadResult
  | ok (msg : List Nat)
  | err (e : ConnErr)
  | panicked
  deriving Repr, DecidableEq

/-- `Conn.Read` (src/conn.go): read the header with a single `conn.Read`
call and require exactly `headerSize` bytes from it; decode the length
`n` with `readHeaderBytes`; then run the body loop.  After the loop the
source checks only `total != n` — the error assigned inside the loop is
bound to a shadowed variable (`i, err := c.conn.Read(...)`) and never
escapes, so the embedding discards the loop's error component as the
source does.  `SetReadDeadline` and debug logging have no effect on the
returned value and are not modelled.  Note that the source never
consults `maxMsgSize`. -/
def connRead (cfg : ConnCfg) (s : List ReadEv) : ReadResult :=
  match popRead s with
  | (_, some e, _) => ReadResult.err (ConnErr.transport e)
  | (h, none, s1) =>
    if h.length ≠ cfg.headerSize then
      ReadResult.err (ConnErr.headerShort cfg.headerSize h.length)
    else
      match readHeaderBytes h with
      | none => ReadResult.panicked
      | some n =>
        match readLoop n s1 [] with
        | (msg, _inner) =>
          if msg.length ≠ n then ReadResult.err (ConnErr.bodyIncomplete n msg.length)
          else ReadResult.ok msg

/-- Default connection configuration: `NewConn` with zeros everywhere,
as produced for every dialled connection. -/
def cfg4 : ConnCfg := NewConnCfg 0 0 0 false

/-- C1 (code bug): `Conn.Read` never consults `maxMsgSize`.  On a
connection configured with a maximum message size of 10 bytes, a frame
whose length prefix decodes to 100 is read to completion and returned as
a successful read — no error of any kind, let alone a frame-too-large
one, is produced. -/
theorem read_ignores_maxMsgSize :
    (NewConnCfg 4 10 300 false).maxMsgSize = 10
  ∧ connRead (NewConnCfg 4 10 300 false)
      [ReadEv.chunk [100, 0, 0, 0], ReadEv.chunk (List.replicate 100 7)]
      = ReadResult.ok (List.replicate 100 7) := by
  constructor
  · rfl
  · decide

/-- C5 counterexample: with the default 4-byte header, a header that the
stream delivers across two partial reads (first 1 byte, then the other
3) makes `Conn.Read` fail at once with a header-size error — the header
read is a single `conn.Read` call and does not loop — even though the
remaining events would complete the header and a 5-byte payload. -/
theorem read_split_header_errors :
    connRead cfg4 [ReadEv.chunk [5], ReadEv.chunk [0, 0, 0], ReadEv.chunk [1, 2, 3, 4, 5]]
      = ReadResult.err (ConnErr.headerShort 4 1) := by
  decide

/-- Body loop of `Conn.Read` on a stream of error-free chunks whose total
size brings the accumulator exactly to `n`: every chunk is consumed and
appended, and no error is reported. -/
theorem readLoop_chunks (bss : List (List Nat)) :
    ∀ (n : Nat) (acc : List Nat), acc.length + bss.flatten.length = n →
      readLoop n (bss.map ReadEv.chunk) acc = (acc ++ bss.flatten, none) := by
  induction bss with
  | nil =>
      intro n acc h
      simp only [List.flatten_nil, List.length_nil, Nat.add_zero] at h
      simp [readLoop, h]
  | cons bs rest ih =>
      intro n acc h
      rw [List.flatten_cons, List.length_append] at h
      by_cases hle : n ≤ acc.length
      · have hbs : bs.length = 0 := by omega
        have hrest : rest.flatten.length = 0 := by omega
        rw [List.length_eq_zero] at hbs hrest
        simp [readLoop, hle, hbs, hrest]
      · rw [List.map_cons, readLoop, if_neg hle, ih n (acc ++ bs) (by rw [List.length_append]; omega)]
        simp [List.flatten_cons]

/-- C5 amended: under the default configuration, the header is obtained
by a single transport read — any first read that yields fewer than 4
bytes makes `Conn.Read` return a header-size error immediately, whatever
the stream would deliver next — while the payload read does loop over
partial reads: a full 4-byte header followed by the payload split into
arbitrarily many error-free chunks totalling the announced length is
read successfully and returns the concatenated payload. -/
theorem read_single_header_then_body_loop :
    (∀ (h1 : List Nat) (rest : List ReadEv), h1.length < 4 →
       connRead cfg4 (ReadEv.chunk h1 :: rest)
         = ReadResult.err (ConnErr.headerShort 4 h1.length))
  ∧ (∀ (b0 b1 b2 b3 : Nat) (bss : List (List Nat)),
       bss.flatten.length = b0 + b1 * 256 + b2 * 65536 + b3 * 16777216 →
       connRead cfg4 (ReadEv.chunk [b0, b1, b2, b3] :: bss.map ReadEv.chunk)
         = ReadResult.ok bss.flatten) := by
  constructor
  · intro h1 rest hlen
    have hne : h1.length ≠ cfg4.headerSize := by
      have h4 : cfg4.headerSize = 4 := rfl
      omega
    simp only [connRead, popRead]
    rw [if_pos hne]
    rfl
  · intro b0 b1 b2 b3 bss hlen
    have hloop := readLoop_chunks bss (b0 + b1 * 256 + b2 * 65536 + b3 * 16777216) []
      (by simpa using hlen)
    have h4 : cfg4.headerSize = 4 := rfl
    simp only [connRead, popRead, readHeaderBytes, h4, List.length_cons, List.length_nil,
      List.nil_append] at hloop ⊢
    rw [hloop]
    simp only [List.nil_append]
    rw [if_neg (by simp), if_neg (by omega)]

/-- C5 witness: the amended theorem at a 1-byte first read (header error
with got = 1) and at header `[2,0,0,0]` followed by the 2-byte payload
split into two 1-byte chunks (successful read of `[7, 8]`). -/
theorem read_single_header_then_body_loop_witness :
    connRead cfg4 [ReadEv.chunk [9]] = ReadResult.err (ConnErr.headerShort 4 1)
  ∧ connRead cfg4 [ReadEv.chunk [2, 0, 0, 0], ReadEv.chunk [7], ReadEv.chunk [8]]
      = ReadResult.ok [7, 8] := by
  constructor
  · have h := read_single_header_then_body_loop.1 [9] [] (by decide)
    simpa using h
  · have h := read_single_header_then_body_loop.2 2 0 0 0 [[7], [8]] (by decide)
    simpa using h

/-- Result of one call to `tls.Conn.Write` by `Conn.Write`: the stream
accepts `n` bytes without error, or reports an error (on which the source
returns immediately, discarding the count). -/
inductive WriteEv
  | accept (n : Nat)
  | fail (e : String)
  deriving Repr, DecidableEq

/-- `Conn.Write` (src/conn.go): build the header with `makeHeaderBytes`
(panics when the header width is below 4, modelled as an immediate
`some` panic marker), write it, then write the body; `hev` and `bev` are
the results of the two underlying `conn.Write` calls.  When a write call
itself errors, that error is returned.  When a call merely accepts the
wrong number of bytes, the source assigns a short-write error to `err`
but never returns it: the header's is overwritten by the body write and
the body's is dropped by the final `return nil` — both are kept here as
unused bindings to mirror those dead assignments. -/
def connWrite (cfg : ConnCfg) (msg : List Nat) (hev bev : WriteEv) : Option String :=
  match makeHeaderBytes msg.length cfg.headerSize with
  | none => some "panic: slice bounds out of range"
  | some _h =>
    match hev with
    | WriteEv.fail e => some e
    | WriteEv.accept n =>
      let _errHeaderShort : Option String :=
        if n ≠ cfg.headerSize then some "expected to write bytes but only wrote fewer" else none
      match bev with
      | WriteEv.fail e => some e
      | WriteEv.accept m =>
        let _errBodyShort : Option String :=
          if m ≠ msg.length then some "expected to write bytes but only wrote fewer" else none
        none

/-- C2 (code bug): `Conn.Write` ends in `return nil`, so a short write
that carries no accompanying error is reported as success.  With the
default configuration and a 5-byte message: a header write accepted in
full followed by a body write that accepts only 3 of the 5 bytes returns
`nil`; so does a header write that accepts only 2 of the 4 header bytes
followed by a full body write. -/
theorem write_short_write_returns_nil :
    connWrite cfg4 [1, 2, 3, 4, 5] (WriteEv.accept 4) (WriteEv.accept 3) = none
  ∧ connWrite cfg4 [1, 2, 3, 4, 5] (WriteEv.accept 2) (WriteEv.accept 5) = none := by
  constructor <;> rfl

/-- Client-authentication modes of crypto/tls; `UseTLS` always selects
`VerifyClientCertIfGiven` when it succeeds. -/
inductive ClientAuthType
  | noClientCert
  | verifyClientCertIfGiven
  deriving Repr, DecidableEq

/-- Result of `Server.UseTLS`: the configured client-auth mode, or the
error returned. -/
inductive UseTLSResult
  | ok (clientAuth : ClientAuthType)
  | err (msg : String)
  deriving Repr, DecidableEq

/-- `x509.CertPool.AppendCertsFromPEM`: returns true iff at least one PEM
block of the input parses as a certificate.  The input is abstracted to
the list of its PEM blocks, each recorded as whether it parses as a
valid certificate; a nil or empty byte slice has no blocks (`[]`) and
therefore yields `false`. -/
def appendCertsFromPEM (blocks : List Bool) : Bool :=
  blocks.any (fun b => b)

/-- `Server.UseTLS` (src/unnamed/part_000 and part_001, identical
bodies): parse the server cert/key pair, parse the leaf certificate,
then unconditionally feed `clientCACert` to `AppendCertsFromPEM` and
fail unless it returns true; on success install a config with
`ClientAuth: tls.VerifyClientCertIfGiven`.  The outcomes of the two
crypto parsing steps on the given cert/key bytes are abstracted into the
booleans `keyPairOk` (`tls.X509KeyPair` succeeds) and `leafOk`
(`x509.ParseCertificate` of the decoded cert succeeds); `clientCACert`
is abstracted as for `appendCertsFromPEM`. -/
def UseTLS (keyPairOk leafOk : Bool) (clientCACert : List Bool) : UseTLSResult :=
  if !keyPairOk then UseTLSResult.err "failed to parse the server certificate or the private key"
  else if !leafOk then UseTLSResult.err "failed to parse the server certificate"
  else if !(appendCertsFromPEM clientCACert) then UseTLSResult.err "failed to parse the CA certificate"
  else UseTLSResult.ok ClientAuthType.verifyClientCertIfGiven

/-- C3 (code bug): with a valid server certificate/key pair (both parse
steps succeed) and no client CA certificate (nil input, hence no PEM
blocks), `UseTLS` returns the CA-parse error instead of succeeding — the
pool append is not guarded by a nil check, although the function's own
doc comment calls `clientCACert` optional. -/
theorem useTLS_nil_clientCA_errors :
    UseTLS true true [] = UseTLSResult.err "failed to parse the CA certificate" := by
  rfl

/-- Observable steps of `Server.wsConnHandler` (src/unnamed/part_000), in
program order: log an accept error, log a rejection by the registered
`connHandler`, log a successful connect, insert into / delete from the
connection registry `s.conns`, start the engine (`c.useConn(ws)`, the
read loop that processes the peer's messages), and call the disconnect
handler. -/
inductive SrvEv
  | logAcceptError
  | logRejected
  | logConnected
  | registryInsert
  | engineStart
  | registryDelete
  | disconnCall
  deriving Repr, DecidableEq

/-- `Server.wsConnHandler` (src/unnamed/part_000) as the sequence of
observable steps it performs, determined by whether `NewConn` succeeded
and whether the registered `connHandler` returned a non-nil error.  In
both early-return cases the handler function terminates, upon which the
websocket library closes the underlying connection. -/
def wsConnHandler (newConnOk : Bool) (connHandlerErr : Bool) : List SrvEv :=
  if !newConnOk then [SrvEv.logAcceptError]
  else if connHandlerErr then [SrvEv.logRejected]
  else [SrvEv.logConnected, SrvEv.registryInsert, SrvEv.engineStart,
        SrvEv.registryDelete, SrvEv.disconnCall]

/-- C7: when the registered `ConnHandler` returns a non-nil error for an
accepted connection, `wsConnHandler` only logs the rejection and
returns: the connection is never inserted into the registry and its
engine (read loop) is never started, so no message from that peer is
processed; the handler's return makes the websocket layer close the
connection. -/
theorem connHandler_error_refuses_connection :
    wsConnHandler true true = [SrvEv.logRejected]
  ∧ SrvEv.registryInsert ∉ wsConnHandler true true
  ∧ SrvEv.engineStart ∉ wsConnHandler true true := by
  decide

/-- Outcome of `jwt.Parse` plus the `jt.Valid` check inside the HMAC
middleware (src/middleware/jwt/jwt_auth.go): the parse errored (wrong
signing method or malformed token), the token parsed but is not valid,
or it is valid with `claimsUserid` recording the `userid` claim when it
is present and a string (the source reads it with an unchecked type
assertion, which panics otherwise). -/
inductive ParseRes
  | perr (e : String)
  | invalid
  | valid (claimsUserid : Option String)
  deriving Repr, DecidableEq

/-- Authentication-relevant content of one request as the HMAC middleware
sees it: either `ctx.Params(&t)` fails with a decode error, or it yields
a token string together with what `jwt.Parse` makes of it. -/
inductive ReqAuthData
  | decodeFail (e : String)
  | token (t : String) (parse : ParseRes)
  deriving Repr, DecidableEq

/-- Value returned by one invocation of the middleware closure. -/
inductive HmacRes
  | ok
  | nextErr (e : String)
  | decodeErr (e : String)
  | authErr
  | panicked
  deriving Repr, DecidableEq

/-- Observable outcome of one invocation of the HMAC middleware closure:
the closure's `authenticated` flag afterwards, whether `ctx.Conn.Close()`
was called, whether `ctx.Next()` was called, the value stored under
`"userid"` in the connection session (if any), and the returned value. -/
structure HmacOut where
  auth : Bool
  closedConn : Bool
  calledNext : Bool
  sessionUserid : Option String
  res : HmacRes
  deriving Repr, DecidableEq

/-- Return value of the closure when it ends in `return ctx.Next()`. -/
def retNext (nextRes : Option String) : HmacRes :=
  match nextRes with
  | none => HmacRes.ok
  | some e => HmacRes.nextErr e

/-- One invocation of the closure returned by `jwt.HMAC(password)`
(src/middleware/jwt/jwt_auth.go).  `auth` is the closure-captured
`authenticated` variable on entry; `req` is the request's
authentication data; `nextRes` is what `ctx.Next()` would return.  When
`auth` is already true the closure immediately returns `ctx.Next()`,
touching nothing else.  Otherwise: a params-decode failure closes the
connection and returns the decode error; a parse error or invalid token
closes the connection and returns the invalid-attempt error; a valid
token sets `authenticated = true`, then reads the `userid` claim with a
type assertion (panicking when it is absent), stores it in the session,
and returns `ctx.Next()`. -/
def hmacStep (auth : Bool) (req : ReqAuthData) (nextRes : Option String) : HmacOut :=
  if auth then
    { auth := true, closedConn := false, calledNext := true,
      sessionUserid := none, res := retNext nextRes }
  else
    match req with
    | ReqAuthData.decodeFail e =>
        { auth := false, closedConn := true, calledNext := false,
          sessionUserid := none, res := HmacRes.decodeErr e }
    | ReqAuthData.token _t (ParseRes.perr _e) =>
        { auth := false, closedConn := true, calledNext := false,
          sessionUserid := none, res := HmacRes.authErr }
    | ReqAuthData.token _t ParseRes.invalid =>
        { auth := false, closedConn := true, calledNext := false,
          sessionUserid := none, res := HmacRes.authErr }
    | ReqAuthData.token _t (ParseRes.valid none) =>
        { auth := true, closedConn := false, calledNext := false,
          sessionUserid := none, res := HmacRes.panicked }
    | ReqAuthData.token _t (ParseRes.valid (some uid)) =>
        { auth := true, closedConn := false, calledNext := true,
          sessionUserid := some uid, res := retNext nextRes }

/-- C9: while the middleware instance is not yet authenticated, a request
whose `Params` decode fails makes the closure call `ctx.Conn.Close()`
and return the decode error, without calling `Next` (and without
touching the session or the flag). -/
theorem hmac_decode_failure_closes :
    ∀ (e : String) (nextRes : Option String),
      hmacStep false (ReqAuthData.decodeFail e) nextRes
        = { auth := false, closedConn := true, calledNext := false,
            sessionUserid := none, res := HmacRes.decodeErr e } := by
  intro e nextRes
  rfl

/-- C10: the `authenticated` flag lives in the closure returned by
`jwt.HMAC`, not in any per-connection session: one successfully
authenticating request (valid token carrying a `userid` claim) turns the
flag on, and with the flag on the closure's behaviour is a constant
function of the request — any two invocations of the same instance, on
any connections and with any token content (valid, invalid or missing),
produce identical outcomes and both just call `Next()`. -/
theorem hmac_flag_in_closure :
    (∀ (t uid : String) (nx : Option String),
      (hmacStep false (ReqAuthData.token t (ParseRes.valid (some uid))) nx).auth = true)
  ∧ (∀ (r1 r2 : ReqAuthData) (nx : Option String),
      hmacStep true r1 nx = hmacStep true r2 nx)
  ∧ (∀ (r : ReqAuthData) (nx : Option String),
      (hmacStep true r nx).calledNext = true ∧ (hmacStep true r nx).auth = true) := by
  refine ⟨fun t uid nx => rfl, fun r1 r2 nx => rfl, fun r nx => ⟨rfl, rfl⟩⟩
